import Mathlib

/-!
Verification of the phone-address binding service
(`app/services/phone_address_service.py`).

The service mediates between an HTTP layer and a Redis key-value store.
We embed the store as an association list from string keys to string
values, the Redis commands used by the service (`GET`, `SET`,
`SET NX`, `EXISTS`, `DEL`) as explicit state transformers
`Store → result × Store`, and the four service operations
(`get`, `create`, `update`, `delete`) as compositions of those
commands, following the Python source line by line.
-/

namespace PhoneAddress

/-- The key-value store: an association list of string keys to string
values.  Redis guarantees at most one value per key; this shows up here
as the invariant `StoreInv` (no duplicate keys), proved to be preserved
by every operation. -/
abbrev Store := List (String × String)

/-- `app/schemas/phone_address.py`: payload of a create call, fields
`phone` and `address`.  (Length validation happens in the request
layer, before the service is invoked.) -/
structure PhoneAddressCreate where
  phone : String
  address : String
  deriving DecidableEq, Repr

/-- `app/schemas/phone_address.py`: record returned by a lookup, fields
`phone` and `address`. -/
structure PhoneAddressRead where
  phone : String
  address : String
  deriving DecidableEq, Repr

namespace Redis

/-- Redis `GET key`: returns the stored value or `None`; the store is
not modified. -/
def get (k : String) (s : Store) : Option String × Store :=
  (s.lookup k, s)

/-- Removal of every entry with key `k` (helper for `SET` and `DEL`
semantics: Redis holds at most one value per key). -/
def eraseKey (k : String) (s : Store) : Store :=
  s.filter (fun e => e.1 != k)

/-- Redis `SET key value NX` (redis-py `set(key, value, nx=True)`):
sets the key only if it is absent; returns `True` on success and `None`
(embedded as `none`) when the key already exists, in which case nothing
is modified. -/
def setnx (k v : String) (s : Store) : Option Bool × Store :=
  match s.lookup k with
  | some _ => (none, s)
  | none => (some true, (k, v) :: s)

/-- Redis `SET key value` (unconditional): overwrites any previous
value for the key. -/
def set (k v : String) (s : Store) : Store :=
  (k, v) :: eraseKey k s

/-- Redis `EXISTS key`: the number of the given keys that exist
(here a single key, so `0` or `1`); the store is not modified. -/
def existsCount (k : String) (s : Store) : Nat × Store :=
  (if (s.lookup k).isSome then 1 else 0, s)

/-- Redis `DEL key`: removes the key and returns the number of keys
removed (here `0` or `1`). -/
def del (k : String) (s : Store) : Nat × Store :=
  (if (s.lookup k).isSome then 1 else 0, eraseKey k s)

end Redis

namespace PhoneAddressService

/-- `PhoneAddressService.__make_key`: builds the namespaced Redis key
`f"phone_address:{phone}"` from the phone string, verbatim. -/
def _make_key (phone : String) : String :=
  "phone_address:" ++ phone

/-- `PhoneAddressService.get`: builds the key, issues a Redis `GET`;
returns `none` when no value is stored, otherwise the populated
`PhoneAddressRead`. -/
def get (phone : String) (s : Store) : Option PhoneAddressRead × Store :=
  let key := _make_key phone
  let r := Redis.get key s
  match r.1 with
  | none => (none, r.2)
  | some address => (some ⟨phone, address⟩, r.2)

/-- `PhoneAddressService.create`: builds the key from `data.phone`,
issues `set(key, data.address, nx=True)` and returns `bool(was_set)`
(Python truthiness: `None ↦ false`). -/
def create (data : PhoneAddressCreate) (s : Store) : Bool × Store :=
  let key := _make_key data.phone
  let r := Redis.setnx key data.address s
  (r.1.getD false, r.2)

/-- `PhoneAddressService.update`: builds the key, issues `EXISTS`; if
the key is absent returns `False` without writing, otherwise issues an
unconditional `SET` with the new address and returns `True`. -/
def update (phone address : String) (s : Store) : Bool × Store :=
  let key := _make_key phone
  let r := Redis.existsCount key s
  if r.1 = 0 then (false, r.2)
  else (true, Redis.set key address r.2)

/-- `PhoneAddressService.delete`: builds the key, issues `DEL` and
returns `deleted_count > 0`. -/
def delete (phone : String) (s : Store) : Bool × Store :=
  let key := _make_key phone
  let r := Redis.del key s
  (decide (r.1 > 0), r.2)

end PhoneAddressService

/-- A serialization of several `create` calls run back to back,
collecting the returned booleans and threading the store.  Each
`create` issues a single atomic conditional-set store command, so any
interleaving of N concurrent `create` calls is some ordering of the N
commands: quantifying over the argument list covers every scheduling
order. -/
def runCreates (ds : List PhoneAddressCreate) (s : Store) :
    List Bool × Store :=
  match ds with
  | [] => ([], s)
  | d :: rest =>
    let r := PhoneAddressService.create d s
    let rs := runCreates rest r.2
    (r.1 :: rs.1, rs.2)

/-- Store invariant: no two entries share a key, so each phone string
is bound to at most one stored address. -/
def StoreInv (s : Store) : Prop :=
  (s.map Prod.fst).Nodup

instance : DecidablePred StoreInv := fun s =>
  inferInstanceAs (Decidable ((s.map Prod.fst).Nodup))

/-! ### Helper lemmas about `List.lookup` and `Redis.eraseKey` -/

theorem lookup_cons_self (k v : String) (s : Store) :
    List.lookup k ((k, v) :: s) = some v := by
  simp [List.lookup]

theorem lookup_cons_ne (k k' v : String) (s : Store) (h : k ≠ k') :
    List.lookup k ((k', v) :: s) = List.lookup k s := by
  have hb : (k == k') = false := beq_eq_false_iff_ne.mpr h
  simp [List.lookup, hb]

theorem lookup_eraseKey_self (k : String) (s : Store) :
    (Redis.eraseKey k s).lookup k = none := by
  induction s with
  | nil => rfl
  | cons e t ih =>
    obtain ⟨a, b⟩ := e
    by_cases h : a = k
    · simpa [Redis.eraseKey, List.filter_cons, h] using ih
    · have hne : k ≠ a := fun hk => h hk.symm
      simpa [Redis.eraseKey, List.filter_cons, h, lookup_cons_ne k a b _ hne] using ih

theorem lookup_eraseKey_ne (k k' : String) (s : Store) (h : k' ≠ k) :
    (Redis.eraseKey k s).lookup k' = s.lookup k' := by
  induction s with
  | nil => rfl
  | cons e t ih =>
    obtain ⟨a, b⟩ := e
    by_cases ha : a = k
    · subst ha
      simpa [Redis.eraseKey, List.filter_cons, lookup_cons_ne k' a b t h] using ih
    · by_cases hk : k' = a
      · subst hk
        simp [Redis.eraseKey, List.filter_cons, ha, lookup_cons_self]
      · simpa [Redis.eraseKey, List.filter_cons, ha, lookup_cons_ne k' a b _ hk] using ih

theorem eraseKey_cons_self (k v : String) (s : Store) :
    Redis.eraseKey k ((k, v) :: s) = Redis.eraseKey k s := by
  simp [Redis.eraseKey, List.filter_cons]

theorem eraseKey_idem (k : String) (s : Store) :
    Redis.eraseKey k (Redis.eraseKey k s) = Redis.eraseKey k s := by
  simp [Redis.eraseKey, List.filter_filter]

/-- A service-level lookup returns `none` exactly when the store has no
value at the key of the phone. -/
theorem get_fst_eq_none_iff (p : String) (s : Store) :
    (PhoneAddressService.get p s).1 = none ↔
      s.lookup (PhoneAddressService._make_key p) = none := by
  cases hl : s.lookup (PhoneAddressService._make_key p) <;>
    simp [PhoneAddressService.get, Redis.get, hl]

/-- A service-level lookup returns the stored binding. -/
theorem get_fst_eq_some_iff (p a : String) (s : Store) :
    (PhoneAddressService.get p s).1 = some ⟨p, a⟩ ↔
      s.lookup (PhoneAddressService._make_key p) = some a := by
  cases hl : s.lookup (PhoneAddressService._make_key p) <;>
    simp [PhoneAddressService.get, Redis.get, hl, PhoneAddressRead.mk.injEq]

/-! ### Claims -/

/-- C4: `_make_key` is the pure function `"phone_address:" ++ phone`,
using the phone string verbatim, and is injective on phone strings; in
particular `"1"` and `" 1"` map to distinct keys. -/
theorem keyScheme_verbatim_injective :
    (∀ p : String, PhoneAddressService._make_key p = "phone_address:" ++ p) ∧
    Function.Injective PhoneAddressService._make_key ∧
    PhoneAddressService._make_key "1" ≠ PhoneAddressService._make_key " 1" := by
  refine ⟨fun p => rfl, ?_, by decide⟩
  intro p q h
  have hd := congrArg String.data h
  simp [PhoneAddressService._make_key, String.data_append] at hd
  exact String.ext hd

/-- C1: for a phone with no stored binding, `create` returns `true`
and an immediately following `lookup` returns the binding `(p, a)`. -/
theorem create_fresh_then_lookup (p a : String) (s : Store)
    (habsent : (PhoneAddressService.get p s).1 = none) :
    (PhoneAddressService.create ⟨p, a⟩ s).1 = true ∧
    (PhoneAddressService.get p (PhoneAddressService.create ⟨p, a⟩ s).2).1 =
      some ⟨p, a⟩ := by
  have hl := (get_fst_eq_none_iff p s).mp habsent
  constructor
  · simp [PhoneAddressService.create, Redis.setnx, hl]
  · rw [get_fst_eq_some_iff]
    simp [PhoneAddressService.create, Redis.setnx, hl, lookup_cons_self]

theorem create_fresh_then_lookup_witness :
    (PhoneAddressService.create ⟨"1", "addr one"⟩ []).1 = true ∧
    (PhoneAddressService.get "1"
      (PhoneAddressService.create ⟨"1", "addr one"⟩ []).2).1 =
      some ⟨"1", "addr one"⟩ :=
  create_fresh_then_lookup "1" "addr one" [] (by decide)

/-- C2: for a phone already stored with address `a`, `create` with any
address `a2` returns `false`, leaves the store unchanged, and a
following `lookup` still returns `(p, a)`. -/
theorem create_existing_noop (p a a2 : String) (s : Store)
    (hstored : (PhoneAddressService.get p s).1 = some ⟨p, a⟩) :
    (PhoneAddressService.create ⟨p, a2⟩ s).1 = false ∧
    (PhoneAddressService.create ⟨p, a2⟩ s).2 = s ∧
    (PhoneAddressService.get p (PhoneAddressService.create ⟨p, a2⟩ s).2).1 =
      some ⟨p, a⟩ := by
  have hl := (get_fst_eq_some_iff p a s).mp hstored
  refine ⟨?_, ?_, ?_⟩
  · simp [PhoneAddressService.create, Redis.setnx, hl]
  · simp [PhoneAddressService.create, Redis.setnx, hl]
  · rw [get_fst_eq_some_iff]
    simp [PhoneAddressService.create, Redis.setnx, hl]

theorem create_existing_noop_witness :
    (PhoneAddressService.create ⟨"1", "other"⟩ [("phone_address:1", "home")]).1
      = false ∧
    (PhoneAddressService.create ⟨"1", "other"⟩ [("phone_address:1", "home")]).2
      = [("phone_address:1", "home")] ∧
    (PhoneAddressService.get "1"
      (PhoneAddressService.create ⟨"1", "other"⟩
        [("phone_address:1", "home")]).2).1 = some ⟨"1", "home"⟩ :=
  create_existing_noop "1" "home" "other" [("phone_address:1", "home")] (by decide)

theorem eraseKey_eq_self_of_lookup_none (k : String) (s : Store)
    (h : s.lookup k = none) : Redis.eraseKey k s = s := by
  induction s with
  | nil => rfl
  | cons e t ih =>
    obtain ⟨a, b⟩ := e
    by_cases hk : k = a
    · subst hk
      rw [lookup_cons_self] at h
      exact absurd h (by simp)
    · rw [lookup_cons_ne k a b t hk] at h
      have ha : a ≠ k := fun ha => hk ha.symm
      simp [Redis.eraseKey, List.filter_cons, ha]
      simpa [Redis.eraseKey] using ih h

/-- C5: for a phone with no stored binding, `update` returns `false`,
performs no write (the store is unchanged), and a following `lookup`
still returns absent. -/
theorem update_absent_noop (p a : String) (s : Store)
    (habsent : (PhoneAddressService.get p s).1 = none) :
    PhoneAddressService.update p a s = (false, s) ∧
    (PhoneAddressService.get p (PhoneAddressService.update p a s).2).1 = none := by
  have hl := (get_fst_eq_none_iff p s).mp habsent
  have hupd : PhoneAddressService.update p a s = (false, s) := by
    simp [PhoneAddressService.update, Redis.existsCount, hl]
  exact ⟨hupd, by rw [hupd]; exact habsent⟩

theorem update_absent_noop_witness :
    PhoneAddressService.update "1" "addr" [("phone_address:2", "x")] =
      (false, [("phone_address:2", "x")]) ∧
    (PhoneAddressService.get "1"
      (PhoneAddressService.update "1" "addr" [("phone_address:2", "x")]).2).1 =
      none :=
  update_absent_noop "1" "addr" [("phone_address:2", "x")] (by decide)

/-- C6: for a phone stored with address `a`, `update` with `a2` returns
`true` and replaces the value, so `lookup` returns `(p, a2)`; a second
identical `update` returns `true` and leaves the store in the same
state (idempotence given the same arguments). -/
theorem update_existing_idem (p a a2 : String) (s : Store)
    (hstored : (PhoneAddressService.get p s).1 = some ⟨p, a⟩) :
    (PhoneAddressService.update p a2 s).1 = true ∧
    (PhoneAddressService.get p (PhoneAddressService.update p a2 s).2).1 =
      some ⟨p, a2⟩ ∧
    PhoneAddressService.update p a2 (PhoneAddressService.update p a2 s).2 =
      (true, (PhoneAddressService.update p a2 s).2) := by
  have hl := (get_fst_eq_some_iff p a s).mp hstored
  have hupd : PhoneAddressService.update p a2 s =
      (true, Redis.set (PhoneAddressService._make_key p) a2 s) := by
    simp [PhoneAddressService.update, Redis.existsCount, hl]
  refine ⟨by rw [hupd], ?_, ?_⟩
  · rw [hupd, get_fst_eq_some_iff]
    exact lookup_cons_self _ a2 _
  · rw [hupd]
    have hl2 : (Redis.set (PhoneAddressService._make_key p) a2 s).lookup
        (PhoneAddressService._make_key p) = some a2 := lookup_cons_self _ a2 _
    have hset : Redis.set (PhoneAddressService._make_key p) a2
        (Redis.set (PhoneAddressService._make_key p) a2 s) =
        Redis.set (PhoneAddressService._make_key p) a2 s := by
      simp [Redis.set, eraseKey_cons_self, eraseKey_idem]
    simp [PhoneAddressService.update, Redis.existsCount, hl2, hset]

theorem update_existing_idem_witness :
    (PhoneAddressService.update "1" "new addr" [("phone_address:1", "old")]).1
      = true ∧
    (PhoneAddressService.get "1"
      (PhoneAddressService.update "1" "new addr"
        [("phone_address:1", "old")]).2).1 = some ⟨"1", "new addr"⟩ ∧
    PhoneAddressService.update "1" "new addr"
      (PhoneAddressService.update "1" "new addr"
        [("phone_address:1", "old")]).2 =
      (true, (PhoneAddressService.update "1" "new addr"
        [("phone_address:1", "old")]).2) :=
  update_existing_idem "1" "old" "new addr" [("phone_address:1", "old")]
    (by decide)

/-- C7: for a phone with a stored binding, `delete` returns `true` and
removes the binding: `lookup` afterwards returns absent and a second
`delete` returns `false` without changing the store; and for any store
state with no binding for the phone, `delete` returns `false` and
leaves the store unchanged. -/
theorem delete_existing_then_absent (p a : String) (s : Store)
    (hstored : (PhoneAddressService.get p s).1 = some ⟨p, a⟩) :
    (PhoneAddressService.delete p s).1 = true ∧
    (PhoneAddressService.get p (PhoneAddressService.delete p s).2).1 = none ∧
    PhoneAddressService.delete p (PhoneAddressService.delete p s).2 =
      (false, (PhoneAddressService.delete p s).2) ∧
    ∀ t : Store, (PhoneAddressService.get p t).1 = none →
      PhoneAddressService.delete p t = (false, t) := by
  have hl := (get_fst_eq_some_iff p a s).mp hstored
  have habsentDel : ∀ t : Store, (PhoneAddressService.get p t).1 = none →
      PhoneAddressService.delete p t = (false, t) := by
    intro t ht
    have hlt := (get_fst_eq_none_iff p t).mp ht
    simp [PhoneAddressService.delete, Redis.del, hlt,
      eraseKey_eq_self_of_lookup_none _ t hlt]
  have hdel : PhoneAddressService.delete p s =
      (true, Redis.eraseKey (PhoneAddressService._make_key p) s) := by
    simp [PhoneAddressService.delete, Redis.del, hl]
  have hafter : (PhoneAddressService.get p
      (PhoneAddressService.delete p s).2).1 = none := by
    rw [hdel, get_fst_eq_none_iff]
    exact lookup_eraseKey_self _ s
  exact ⟨by rw [hdel], hafter, habsentDel _ hafter, habsentDel⟩

theorem delete_existing_then_absent_witness :
    (PhoneAddressService.delete "1" [("phone_address:1", "home")]).1 = true ∧
    (PhoneAddressService.get "1"
      (PhoneAddressService.delete "1" [("phone_address:1", "home")]).2).1 =
      none ∧
    PhoneAddressService.delete "1"
      (PhoneAddressService.delete "1" [("phone_address:1", "home")]).2 =
      (false,
        (PhoneAddressService.delete "1" [("phone_address:1", "home")]).2) ∧
    PhoneAddressService.delete "1" [] = (false, []) :=
  have h := delete_existing_then_absent "1" "home"
    [("phone_address:1", "home")] (by decide)
  ⟨h.1, h.2.1, h.2.2.1, h.2.2.2 [] (by decide)⟩

/-- C8: `lookup` is read-only and idempotent — it returns the store
unchanged in every state — and a missing key yields the ordinary
return value `none` rather than an error. -/
theorem lookup_readonly_total (p : String) (s : Store) :
    (PhoneAddressService.get p s).2 = s ∧
    PhoneAddressService.get p (PhoneAddressService.get p s).2 =
      PhoneAddressService.get p s ∧
    ((PhoneAddressService.get p s).1 = none ↔
      s.lookup (PhoneAddressService._make_key p) = none) := by
  have hro : (PhoneAddressService.get p s).2 = s := by
    cases hl : s.lookup (PhoneAddressService._make_key p) <;>
      simp [PhoneAddressService.get, Redis.get, hl]
  exact ⟨hro, by rw [hro], get_fst_eq_none_iff p s⟩

theorem get_snd_eq (p : String) (s : Store) :
    (PhoneAddressService.get p s).2 = s := by
  cases hl : s.lookup (PhoneAddressService._make_key p) <;>
    simp [PhoneAddressService.get, Redis.get, hl]

theorem not_mem_keys_of_lookup_none (k : String) (s : Store)
    (h : s.lookup k = none) : k ∉ s.map Prod.fst := by
  induction s with
  | nil => simp
  | cons e t ih =>
    obtain ⟨a, b⟩ := e
    by_cases hk : k = a
    · subst hk
      rw [lookup_cons_self] at h
      exact absurd h (by simp)
    · rw [lookup_cons_ne k a b t hk] at h
      simp [hk, ih h]

theorem storeInv_eraseKey (k : String) (s : Store) (h : StoreInv s) :
    StoreInv (Redis.eraseKey k s) := by
  have hsub : ((Redis.eraseKey k s).map Prod.fst).Sublist (s.map Prod.fst) :=
    (List.filter_sublist s).map Prod.fst
  exact List.Nodup.sublist hsub h

/-- C3: in every store state satisfying the invariant, each distinct
phone string is bound to at most one stored value, and each of the four
operations (`get`, `create`, `update`, `delete`) preserves the
invariant, so it holds in every reachable state. -/
theorem storeInv_at_most_one_and_preserved (s : Store) (p a : String)
    (d : PhoneAddressCreate) (h : StoreInv s) :
    (∀ q : String,
      (s.map Prod.fst).count (PhoneAddressService._make_key q) ≤ 1) ∧
    StoreInv (PhoneAddressService.get p s).2 ∧
    StoreInv (PhoneAddressService.create d s).2 ∧
    StoreInv (PhoneAddressService.update p a s).2 ∧
    StoreInv (PhoneAddressService.delete p s).2 := by
  refine ⟨fun q => List.nodup_iff_count_le_one.mp h _, ?_, ?_, ?_, ?_⟩
  · rw [get_snd_eq]
    exact h
  · cases hl : s.lookup (PhoneAddressService._make_key d.phone) with
    | some v =>
      simp only [PhoneAddressService.create, Redis.setnx, hl]
      exact h
    | none =>
      simp only [PhoneAddressService.create, Redis.setnx, hl]
      show StoreInv ((PhoneAddressService._make_key d.phone, d.address) :: s)
      refine List.nodup_cons.mpr ⟨not_mem_keys_of_lookup_none _ s hl, h⟩
  · cases hl : s.lookup (PhoneAddressService._make_key p) with
    | none =>
      simp only [PhoneAddressService.update, Redis.existsCount, hl]
      simpa using h
    | some v =>
      have hkey : PhoneAddressService._make_key p ∉
          (Redis.eraseKey (PhoneAddressService._make_key p) s).map Prod.fst :=
        not_mem_keys_of_lookup_none _ _ (lookup_eraseKey_self _ s)
      have hgoal : StoreInv (Redis.set (PhoneAddressService._make_key p) a s) := by
        unfold StoreInv Redis.set
        rw [List.map_cons]
        exact List.nodup_cons.mpr ⟨hkey, storeInv_eraseKey _ s h⟩
      simpa [PhoneAddressService.update, Redis.existsCount, hl] using hgoal
  · simp only [PhoneAddressService.delete, Redis.del]
    exact storeInv_eraseKey _ s h

theorem storeInv_at_most_one_and_preserved_witness :
    (([("phone_address:1", "a")] : Store).map Prod.fst).count
      (PhoneAddressService._make_key "1") ≤ 1 ∧
    StoreInv (PhoneAddressService.get "2" [("phone_address:1", "a")]).2 ∧
    StoreInv (PhoneAddressService.create ⟨"3", "y"⟩
      [("phone_address:1", "a")]).2 ∧
    StoreInv (PhoneAddressService.update "2" "x"
      [("phone_address:1", "a")]).2 ∧
    StoreInv (PhoneAddressService.delete "1" [("phone_address:1", "a")]).2 :=
  have h := storeInv_at_most_one_and_preserved [("phone_address:1", "a")]
    "2" "x" ⟨"3", "y"⟩ (by decide)
  have h1 := storeInv_at_most_one_and_preserved [("phone_address:1", "a")]
    "1" "x" ⟨"3", "y"⟩ (by decide)
  ⟨h.1 "1", h.2.1, h.2.2.1, h.2.2.2.1, h1.2.2.2.2⟩

theorem runCreates_after_taken (p : String) (as : List String) (s : Store)
    (v : String) (h : s.lookup (PhoneAddressService._make_key p) = some v) :
    (runCreates (as.map fun a => ⟨p, a⟩) s).1 =
      List.replicate as.length false ∧
    (runCreates (as.map fun a => ⟨p, a⟩) s).2 = s := by
  induction as with
  | nil => exact ⟨rfl, rfl⟩
  | cons a rest ih =>
    have hc : PhoneAddressService.create ⟨p, a⟩ s = (false, s) := by
      simp [PhoneAddressService.create, Redis.setnx, h]
    simp [runCreates, hc, List.replicate_succ, ih.1, ih.2]

/-- C9: any serialization of N ≥ 1 `create` calls for the same phone
(each `create` being a single atomic conditional-set store command, so
every scheduling order is some ordering of the commands), starting from
a store with no binding for that phone, yields exactly one `true` and
N−1 `false` results, whatever the order of the addresses. -/
theorem concurrent_creates_single_winner (p : String) (as : List String)
    (s : Store) (hne : as ≠ [])
    (habsent : (PhoneAddressService.get p s).1 = none) :
    (runCreates (as.map fun a => ⟨p, a⟩) s).1.count true = 1 ∧
    (runCreates (as.map fun a => ⟨p, a⟩) s).1.count false =
      as.length - 1 := by
  obtain ⟨a, rest, rfl⟩ := List.exists_cons_of_ne_nil hne
  have hl := (get_fst_eq_none_iff p s).mp habsent
  have h1 : PhoneAddressService.create ⟨p, a⟩ s =
      (true, (PhoneAddressService._make_key p, a) :: s) := by
    simp [PhoneAddressService.create, Redis.setnx, hl]
  have h2 := runCreates_after_taken p rest
    ((PhoneAddressService._make_key p, a) :: s) a (lookup_cons_self _ _ _)
  constructor <;>
    simp [runCreates, h1, h2.1, List.count_cons, List.count_replicate]

theorem concurrent_creates_single_winner_witness :
    (runCreates (["a1", "a2", "a3"].map fun a => ⟨"1", a⟩) []).1.count true
      = 1 ∧
    (runCreates (["a1", "a2", "a3"].map fun a => ⟨"1", a⟩) []).1.count false
      = ["a1", "a2", "a3"].length - 1 :=
  concurrent_creates_single_winner "1" ["a1", "a2", "a3"] []
    (by decide) (by decide)

/-- C10: every operation invoked with phone `p` reads or writes only
the key `_make_key p`: for any phone `q` whose key differs, the stored
binding at the key of `q` (present or absent, and its value) is unchanged by
`get p`, `create (p, a)`, `update p a2` and `delete p`. -/
theorem ops_touch_only_own_key (p q a a2 : String) (s : Store)
    (hne : PhoneAddressService._make_key q ≠ PhoneAddressService._make_key p) :
    (PhoneAddressService.get p s).2.lookup (PhoneAddressService._make_key q) =
      s.lookup (PhoneAddressService._make_key q) ∧
    (PhoneAddressService.create ⟨p, a⟩ s).2.lookup
        (PhoneAddressService._make_key q) =
      s.lookup (PhoneAddressService._make_key q) ∧
    (PhoneAddressService.update p a2 s).2.lookup
        (PhoneAddressService._make_key q) =
      s.lookup (PhoneAddressService._make_key q) ∧
    (PhoneAddressService.delete p s).2.lookup
        (PhoneAddressService._make_key q) =
      s.lookup (PhoneAddressService._make_key q) := by
  refine ⟨by rw [get_snd_eq], ?_, ?_, ?_⟩
  · cases hl : s.lookup (PhoneAddressService._make_key p) with
    | some v => simp [PhoneAddressService.create, Redis.setnx, hl]
    | none =>
      simp only [PhoneAddressService.create, Redis.setnx, hl]
      exact lookup_cons_ne _ _ a s hne
  · cases hl : s.lookup (PhoneAddressService._make_key p) with
    | none => simp [PhoneAddressService.update, Redis.existsCount, hl]
    | some v =>
      have hstep : (PhoneAddressService.update p a2 s).2 =
          (PhoneAddressService._make_key p, a2) ::
            Redis.eraseKey (PhoneAddressService._make_key p) s := by
        simp [PhoneAddressService.update, Redis.existsCount, hl, Redis.set]
      rw [hstep, lookup_cons_ne _ _ a2 _ hne, lookup_eraseKey_ne _ _ s hne]
  · simp only [PhoneAddressService.delete, Redis.del]
    exact lookup_eraseKey_ne _ _ s hne

theorem ops_touch_only_own_key_witness :
    (PhoneAddressService.get "1"
        [("phone_address:2", "b")]).2.lookup
        (PhoneAddressService._make_key "2") =
      ([("phone_address:2", "b")] : Store).lookup
        (PhoneAddressService._make_key "2") ∧
    (PhoneAddressService.create ⟨"1", "a"⟩
        [("phone_address:2", "b")]).2.lookup
        (PhoneAddressService._make_key "2") =
      ([("phone_address:2", "b")] : Store).lookup
        (PhoneAddressService._make_key "2") ∧
    (PhoneAddressService.update "1" "a2"
        [("phone_address:2", "b")]).2.lookup
        (PhoneAddressService._make_key "2") =
      ([("phone_address:2", "b")] : Store).lookup
        (PhoneAddressService._make_key "2") ∧
    (PhoneAddressService.delete "1"
        [("phone_address:2", "b")]).2.lookup
        (PhoneAddressService._make_key "2") =
      ([("phone_address:2", "b")] : Store).lookup
        (PhoneAddressService._make_key "2") :=
  ops_touch_only_own_key "1" "2" "a" "a2" [("phone_address:2", "b")]
    (by decide)

end PhoneAddress
